import Mathlib

/-!
Verification development for the permission subsystem of mlflow-oidc-auth.

The repository ships the web frontend (TypeScript/React) together with
`docs/permissions.md`, which documents the permission-resolution engine
(permission levels, source order, hierarchy reconciliation and regex
pattern matching).  The resolution engine itself is not part of the
shipped sources, so its definitions below are modelled from the spec;
the frontend definitions (`getPermissionUrl`, `encodeURIComponent`,
modal save handlers, `PermissionLevelSelect`) are translated directly
from the TypeScript sources.
-/

namespace MlflowOidc

/-- Permission levels as documented in `docs/permissions.md`:
READ, EDIT, MANAGE and the NO_PERMISSIONS sentinel. -/
inductive PermLevel where
  | READ
  | EDIT
  | MANAGE
  | NO_PERMISSIONS
deriving DecidableEq, Repr

/-- Hierarchy rank from `docs/permissions.md`: READ has priority 1,
EDIT 2, MANAGE 3, NO_PERMISSIONS the special value 100. -/
def hierarchyRank : PermLevel → Nat
  | .READ => 1
  | .EDIT => 2
  | .MANAGE => 3
  | .NO_PERMISSIONS => 100

/-- Pick the candidate of higher hierarchy rank (keeping the first on ties). -/
def maxByRank (a b : PermLevel) : PermLevel :=
  if hierarchyRank a < hierarchyRank b then b else a

/-- Modelled from the spec: the Hierarchy Comparator (§4.3), which is not in
the shipped sources.  Given the candidate levels collected from the groups of
one principal on one resource, it returns the highest-rank (most permissive)
level among the candidates, unless the only candidates present are
NO_PERMISSIONS, in which case it returns NO_PERMISSIONS. -/
def compareLevels (candidates : List PermLevel) : PermLevel :=
  match candidates.filter (fun c => c != PermLevel.NO_PERMISSIONS) with
  | [] => PermLevel.NO_PERMISSIONS
  | x :: xs => xs.foldl maxByRank x

/-- Modelled from the spec: a PatternRule of the Regex Permission System
(§3 of the design, `docs/permissions.md`), which is not in the shipped
sources.  `test` is the compiled regular expression's match function:
the regex engine itself (Python `re`) is external to the repository, so the
rule carries the semantics of its compiled pattern. -/
structure PatternRule where
  id : Nat
  regex : String
  test : String → Bool
  level : PermLevel
  priority : Nat

/-- Tag every list element with its 0-based insertion position, starting at `n`. -/
def tagIdx (n : Nat) : List PatternRule → List (Nat × PatternRule)
  | [] => []
  | r :: rs => (n, r) :: tagIdx (n + 1) rs

/-- The sorting key of the Pattern Matcher: priority ascending, ties broken
by original insertion order. -/
def keyLe (a b : Nat × PatternRule) : Prop :=
  a.2.priority < b.2.priority ∨ (a.2.priority = b.2.priority ∧ a.1 ≤ b.1)

instance (a b : Nat × PatternRule) : Decidable (keyLe a b) := by
  unfold keyLe; infer_instance

/-- Insert an index-tagged rule in front of the first element it is
`keyLe`-below. -/
def orderedInsertRule (x : Nat × PatternRule) :
    List (Nat × PatternRule) → List (Nat × PatternRule)
  | [] => [x]
  | y :: ys => if keyLe x y then x :: y :: ys else y :: orderedInsertRule x ys

/-- Modelled from the spec: the stable sort of pattern rules by
(priority ascending, then original order) performed by the Pattern Matcher. -/
def sortRules : List (Nat × PatternRule) → List (Nat × PatternRule)
  | [] => []
  | x :: xs => orderedInsertRule x (sortRules xs)

/-- Modelled from the spec: the Pattern Matcher (§4.2), which is not in the
shipped sources.  Given a resource name and the rule list in insertion
order, stable-sort by (priority, insertion order) and return the level and
rule id of the first rule whose pattern matches the name, or `none`. -/
def patternMatch (name : String) (rules : List PatternRule) :
    Option (PermLevel × Nat) :=
  match (sortRules (tagIdx 0 rules)).find? (fun p => p.2.test name) with
  | none => none
  | some p => some (p.2.level, p.2.id)

/-- The three pattern rules of the documented regex example
(`docs/permissions.md`, Example Regex Permissions): `^prod-.*` →
NO_PERMISSIONS at priority 1, `^dev-.*` → MANAGE at priority 2, `.*` →
READ at priority 3, with ids equal to the priorities. -/
def exampleRules : List PatternRule :=
  [ ⟨1, "^prod-.*", fun s => "prod-".data.isPrefixOf s.data, PermLevel.NO_PERMISSIONS, 1⟩,
    ⟨2, "^dev-.*", fun s => "dev-".data.isPrefixOf s.data, PermLevel.MANAGE, 2⟩,
    ⟨3, ".*", fun _ => true, PermLevel.READ, 3⟩ ]

/-- The four permission source kinds of `PERMISSION_SOURCE_ORDER`
(`docs/permissions.md`): `user`, `group`, `regex`, `group-regex`. -/
inductive SourceKind where
  | user
  | group
  | regex
  | groupRegex
deriving DecidableEq, Repr

/-- A principal: user id plus the group ids resolved at authentication time. -/
structure Principal where
  userId : String
  groupIds : List String

/-- The resource types served by the permission system. -/
inductive ResourceType where
  | experiment
  | registeredModel
  | prompt
  | gatewayEndpoint
  | gatewaySecret
  | gatewayModel
deriving DecidableEq, Repr

/-- Modelled from the spec: the Permission Store read contract (§4.1), which
is not in the shipped sources.  Exact grants are keyed by (principal or
group, resource type, resource identifier); pattern grants by (principal or
group, resource type).  Absence of a record is `none`, not an error. -/
structure PermissionStore where
  userPerm : String → ResourceType → String → Option PermLevel
  groupPerm : String → ResourceType → String → Option PermLevel
  userPatternRules : String → ResourceType → List PatternRule
  groupPatternRules : String → ResourceType → List PatternRule

/-- Process-wide resolution configuration: the source evaluation order and
the default permission (`PERMISSION_SOURCE_ORDER`, `DEFAULT_MLFLOW_PERMISSION`). -/
structure ResolutionConfig where
  sourceOrder : List SourceKind
  defaultLevel : PermLevel

/-- The provenance of a resolution decision: a configured source, or the
configured default (surfaced to the frontend as kind `fallback`). -/
inductive Provenance where
  | fromSource (k : SourceKind)
  | fallbackDefault
deriving DecidableEq, Repr

/-- The decision returned by the Resolver: level, provenance and, for regex
sources, the matched rule id for audit. -/
structure ResolutionResult where
  level : PermLevel
  provenance : Provenance
  matchedRuleId : Option Nat
deriving DecidableEq, Repr

/-- Modelled from the spec: one step of the Resolver algorithm (§4.4) — what
one source kind yields for (principal, resource type, resource name):
`user` the exact user grant; `group` the Hierarchy Comparator applied to the
exact grants of the principal's groups, when at least one exists; `regex`
and `group-regex` the Pattern Matcher over the user's rules, respectively
the rules pooled across the principal's groups. -/
def querySource (st : PermissionStore) (p : Principal) (rt : ResourceType)
    (name : String) : SourceKind → Option (PermLevel × Option Nat)
  | .user => (st.userPerm p.userId rt name).map (fun lvl => (lvl, none))
  | .group =>
      match p.groupIds.filterMap (fun g => st.groupPerm g rt name) with
      | [] => none
      | c :: cs => some (compareLevels (c :: cs), none)
  | .regex =>
      (patternMatch name (st.userPatternRules p.userId rt)).map
        (fun r => (r.1, some r.2))
  | .groupRegex =>
      (patternMatch name
          (p.groupIds.foldr (fun g acc => st.groupPatternRules g rt ++ acc) [])).map
        (fun r => (r.1, some r.2))

/-- Modelled from the spec: iteration of the Resolver over the remaining
source order; the first source yielding a decision wins, and the configured
default applies when the order is exhausted. -/
def resolveFrom (st : PermissionStore) (p : Principal) (rt : ResourceType)
    (name : String) (defaultLevel : PermLevel) :
    List SourceKind → ResolutionResult
  | [] => ⟨defaultLevel, Provenance.fallbackDefault, none⟩
  | k :: rest =>
      match querySource st p rt name k with
      | some d => ⟨d.1, Provenance.fromSource k, d.2⟩
      | none => resolveFrom st p rt name defaultLevel rest

/-- Modelled from the spec: the Resolver entry point `Resolve` (§4.4),
which is not in the shipped sources. -/
def Resolve (cfg : ResolutionConfig) (st : PermissionStore) (p : Principal)
    (rt : ResourceType) (name : String) : ResolutionResult :=
  resolveFrom st p rt name cfg.defaultLevel cfg.sourceOrder

/-- The store of the end-to-end user-short-circuit scenario: alice holds a
user grant of EDIT on experiment 123, while every group of every principal
holds a conflicting MANAGE grant on everything. -/
def aliceStore : PermissionStore :=
  ⟨fun u _ r => if u = "alice" ∧ r = "123" then some PermLevel.EDIT else none,
   fun _ _ _ => some PermLevel.MANAGE,
   fun _ _ => [],
   fun _ _ => []⟩

/-- The default source order user, group, regex, group-regex. -/
def defaultOrderConfig : ResolutionConfig :=
  ⟨[SourceKind.user, SourceKind.group, SourceKind.regex, SourceKind.groupRegex],
   PermLevel.READ⟩

/-- The empty permission store: no grants and no pattern rules anywhere. -/
def emptyStore : PermissionStore :=
  ⟨fun _ _ _ => none, fun _ _ _ => none, fun _ _ => [], fun _ _ => []⟩

/-- UTF-8 test of JavaScript `encodeURIComponent` for keeping a character
verbatim: letters A-Z and a-z, digits 0-9, and the nine marks hyphen,
underscore, dot, exclamation, tilde, asterisk, apostrophe and the two
parentheses (code points 45, 95, 46, 33, 126, 42, 39, 40, 41). -/
def isUnreservedChar (c : Char) : Bool :=
  decide ((65 ≤ c.toNat ∧ c.toNat ≤ 90) ∨ (97 ≤ c.toNat ∧ c.toNat ≤ 122)
    ∨ (48 ≤ c.toNat ∧ c.toNat ≤ 57)
    ∨ c.toNat ∈ [45, 95, 46, 33, 126, 42, 39, 40, 41])

/-- The uppercase hexadecimal digit for a value below 16. -/
def hexDigitChar : Nat → Char
  | 0 => '0'
  | 1 => '1'
  | 2 => '2'
  | 3 => '3'
  | 4 => '4'
  | 5 => '5'
  | 6 => '6'
  | 7 => '7'
  | 8 => '8'
  | 9 => '9'
  | 10 => 'A'
  | 11 => 'B'
  | 12 => 'C'
  | 13 => 'D'
  | 14 => 'E'
  | 15 => 'F'
  | _ => '0'

/-- The value of a hexadecimal digit character. -/
def hexVal (c : Char) : Nat :=
  if 48 ≤ c.toNat ∧ c.toNat ≤ 57 then c.toNat - 48
  else if 65 ≤ c.toNat ∧ c.toNat ≤ 70 then c.toNat - 55
  else if 97 ≤ c.toNat ∧ c.toNat ≤ 102 then c.toNat - 87
  else 0

/-- The UTF-8 byte sequence of a Unicode code point. -/
def utf8Bytes (n : Nat) : List Nat :=
  if n < 128 then [n]
  else if n < 2048 then [192 + n / 64, 128 + n % 64]
  else if n < 65536 then [224 + n / 4096, 128 + n / 64 % 64, 128 + n % 64]
  else [240 + n / 262144, 128 + n / 4096 % 64, 128 + n / 64 % 64, 128 + n % 64]

/-- The percent-escape of one byte: a percent sign followed by two uppercase
hexadecimal digits. -/
def percentByte (b : Nat) : List Char :=
  ['%', hexDigitChar (b / 16), hexDigitChar (b % 16)]

/-- One character of `encodeURIComponent` output: kept verbatim when
unreserved, otherwise each of its UTF-8 bytes percent-escaped. -/
def encodeChar (c : Char) : List Char :=
  if isUnreservedChar c then [c]
  else (utf8Bytes c.toNat).foldr (fun b acc => percentByte b ++ acc) []

/-- The JavaScript `encodeURIComponent` builtin used throughout
core/configs/api-endpoints.ts, modelled over the standard semantics: every
character outside the unreserved set is replaced by the percent-escapes of
its UTF-8 bytes. -/
def encodeURIComponent (s : String) : String :=
  ⟨s.data.foldr (fun c acc => encodeChar c ++ acc) []⟩

/-- Percent-decoding: turn the character stream back into the byte stream,
consuming a percent sign together with the following two hexadecimal
digits as one byte and any other character as its own code point. -/
def percentDecodeBytes : List Char → List Nat
  | [] => []
  | c :: rest =>
    if c = '%' then
      match rest with
      | h1 :: h2 :: rest2 => (hexVal h1 * 16 + hexVal h2) :: percentDecodeBytes rest2
      | _ => []
    else c.toNat :: percentDecodeBytes rest

/-- One step of UTF-8 decoding: read the character starting at byte `b` and
return it together with the unconsumed bytes (malformed sequences produce
the replacement character; they never arise from the encoder). -/
def utf8DecodeStep (b : Nat) (rest : List Nat) : Char × List Nat :=
  if b < 128 then (Char.ofNat b, rest)
  else if b < 224 then
    match rest with
    | b1 :: rest2 => (Char.ofNat ((b - 192) * 64 + (b1 - 128)), rest2)
    | [] => (Char.ofNat 65533, [])
  else if b < 240 then
    match rest with
    | b1 :: b2 :: rest2 =>
        (Char.ofNat ((b - 224) * 4096 + (b1 - 128) * 64 + (b2 - 128)), rest2)
    | _ => (Char.ofNat 65533, [])
  else
    match rest with
    | b1 :: b2 :: b3 :: rest2 =>
        (Char.ofNat ((b - 240) * 262144 + (b1 - 128) * 4096 + (b2 - 128) * 64
          + (b3 - 128)), rest2)
    | _ => (Char.ofNat 65533, [])

/-- UTF-8 decoding of a byte stream, with a step budget of one unit per
decoded character (the byte count is always budget enough). -/
def utf8DecodeAux : Nat → List Nat → List Char
  | _, [] => []
  | 0, _ :: _ => []
  | fuel + 1, b :: rest =>
      (utf8DecodeStep b rest).1
        :: utf8DecodeAux fuel (utf8DecodeStep b rest).2

/-- The JavaScript `decodeURIComponent` builtin, modelled over the standard
semantics: percent-decode to bytes, then UTF-8 decode. -/
def decodeURIComponent (s : String) : String :=
  ⟨utf8DecodeAux (percentDecodeBytes s.data).length (percentDecodeBytes s.data)⟩

/-- The URL builders of `DYNAMIC_API_ENDPOINTS` (core/configs/api-endpoints.ts)
that `getPermissionUrl` dispatches to; every path segment built from input is
passed through `encodeURIComponent` exactly as in the source. -/
def USER_EXPERIMENT_PERMISSIONS (userName : String) : String :=
  "/api/2.0/mlflow/permissions/users/" ++ encodeURIComponent userName ++ "/experiments"

def USER_EXPERIMENT_PERMISSION (userName idv : String) : String :=
  "/api/2.0/mlflow/permissions/users/" ++ encodeURIComponent userName ++ "/experiments/" ++ encodeURIComponent idv

def USER_EXPERIMENT_PATTERN_PERMISSIONS (userName : String) : String :=
  "/api/2.0/mlflow/permissions/users/" ++ encodeURIComponent userName ++ "/experiment-patterns"

def USER_EXPERIMENT_PATTERN_PERMISSION (userName idv : String) : String :=
  "/api/2.0/mlflow/permissions/users/" ++ encodeURIComponent userName ++ "/experiment-patterns/" ++ encodeURIComponent idv

def USER_MODEL_PERMISSIONS (userName : String) : String :=
  "/api/2.0/mlflow/permissions/users/" ++ encodeURIComponent userName ++ "/registered-models"

def USER_MODEL_PERMISSION (userName idv : String) : String :=
  "/api/2.0/mlflow/permissions/users/" ++ encodeURIComponent userName ++ "/registered-models/" ++ encodeURIComponent idv

def USER_MODEL_PATTERN_PERMISSIONS (userName : String) : String :=
  "/api/2.0/mlflow/permissions/users/" ++ encodeURIComponent userName ++ "/registered-models-patterns"

def USER_MODEL_PATTERN_PERMISSION (userName idv : String) : String :=
  "/api/2.0/mlflow/permissions/users/" ++ encodeURIComponent userName ++ "/registered-models-patterns/" ++ encodeURIComponent idv

def USER_PROMPT_PERMISSIONS (userName : String) : String :=
  "/api/2.0/mlflow/permissions/users/" ++ encodeURIComponent userName ++ "/prompts"

def USER_PROMPT_PERMISSION (userName idv : String) : String :=
  "/api/2.0/mlflow/permissions/users/" ++ encodeURIComponent userName ++ "/prompts/" ++ encodeURIComponent idv

def USER_PROMPT_PATTERN_PERMISSIONS (userName : String) : String :=
  "/api/2.0/mlflow/permissions/users/" ++ encodeURIComponent userName ++ "/prompts-patterns"

def USER_PROMPT_PATTERN_PERMISSION (userName idv : String) : String :=
  "/api/2.0/mlflow/permissions/users/" ++ encodeURIComponent userName ++ "/prompts-patterns/" ++ encodeURIComponent idv

def USER_GATEWAY_ENDPOINT_PERMISSIONS (userName : String) : String :=
  "/api/2.0/mlflow/permissions/users/" ++ encodeURIComponent userName ++ "/gateways/endpoints"

def USER_GATEWAY_ENDPOINT_PERMISSION (userName idv : String) : String :=
  "/api/2.0/mlflow/permissions/users/" ++ encodeURIComponent userName ++ "/gateways/endpoints/" ++ encodeURIComponent idv

def USER_GATEWAY_ENDPOINT_PATTERN_PERMISSIONS (userName : String) : String :=
  "/api/2.0/mlflow/permissions/users/" ++ encodeURIComponent userName ++ "/gateways/endpoints-patterns"

def USER_GATEWAY_ENDPOINT_PATTERN_PERMISSION (userName idv : String) : String :=
  "/api/2.0/mlflow/permissions/users/" ++ encodeURIComponent userName ++ "/gateways/endpoints-patterns/" ++ encodeURIComponent idv

def USER_GATEWAY_SECRET_PERMISSIONS (userName : String) : String :=
  "/api/2.0/mlflow/permissions/users/" ++ encodeURIComponent userName ++ "/gateways/secrets"

def USER_GATEWAY_SECRET_PERMISSION (userName idv : String) : String :=
  "/api/2.0/mlflow/permissions/users/" ++ encodeURIComponent userName ++ "/gateways/secrets/" ++ encodeURIComponent idv

def USER_GATEWAY_SECRET_PATTERN_PERMISSIONS (userName : String) : String :=
  "/api/2.0/mlflow/permissions/users/" ++ encodeURIComponent userName ++ "/gateways/secrets-patterns"

def USER_GATEWAY_SECRET_PATTERN_PERMISSION (userName idv : String) : String :=
  "/api/2.0/mlflow/permissions/users/" ++ encodeURIComponent userName ++ "/gateways/secrets-patterns/" ++ encodeURIComponent idv

def USER_GATEWAY_MODEL_PERMISSIONS (userName : String) : String :=
  "/api/2.0/mlflow/permissions/users/" ++ encodeURIComponent userName ++ "/gateways/model-definitions"

def USER_GATEWAY_MODEL_PERMISSION (userName idv : String) : String :=
  "/api/2.0/mlflow/permissions/users/" ++ encodeURIComponent userName ++ "/gateways/model-definitions/" ++ encodeURIComponent idv

def USER_GATEWAY_MODEL_PATTERN_PERMISSIONS (userName : String) : String :=
  "/api/2.0/mlflow/permissions/users/" ++ encodeURIComponent userName ++ "/gateways/model-definitions-patterns"

def USER_GATEWAY_MODEL_PATTERN_PERMISSION (userName idv : String) : String :=
  "/api/2.0/mlflow/permissions/users/" ++ encodeURIComponent userName ++ "/gateways/model-definitions-patterns/" ++ encodeURIComponent idv

def GROUP_EXPERIMENT_PERMISSIONS (groupName : String) : String :=
  "/api/2.0/mlflow/permissions/groups/" ++ encodeURIComponent groupName ++ "/experiments"

def GROUP_EXPERIMENT_PERMISSION (groupName idv : String) : String :=
  "/api/2.0/mlflow/permissions/groups/" ++ encodeURIComponent groupName ++ "/experiments/" ++ encodeURIComponent idv

def GROUP_EXPERIMENT_PATTERN_PERMISSIONS (groupName : String) : String :=
  "/api/2.0/mlflow/permissions/groups/" ++ encodeURIComponent groupName ++ "/experiment-patterns"

def GROUP_EXPERIMENT_PATTERN_PERMISSION (groupName idv : String) : String :=
  "/api/2.0/mlflow/permissions/groups/" ++ encodeURIComponent groupName ++ "/experiment-patterns/" ++ encodeURIComponent idv

def GROUP_MODEL_PERMISSIONS (groupName : String) : String :=
  "/api/2.0/mlflow/permissions/groups/" ++ encodeURIComponent groupName ++ "/registered-models"

def GROUP_MODEL_PERMISSION (groupName idv : String) : String :=
  "/api/2.0/mlflow/permissions/groups/" ++ encodeURIComponent groupName ++ "/registered-models/" ++ encodeURIComponent idv

def GROUP_MODEL_PATTERN_PERMISSIONS (groupName : String) : String :=
  "/api/2.0/mlflow/permissions/groups/" ++ encodeURIComponent groupName ++ "/registered-models-patterns"

def GROUP_MODEL_PATTERN_PERMISSION (groupName idv : String) : String :=
  "/api/2.0/mlflow/permissions/groups/" ++ encodeURIComponent groupName ++ "/registered-models-patterns/" ++ encodeURIComponent idv

def GROUP_PROMPT_PERMISSIONS (groupName : String) : String :=
  "/api/2.0/mlflow/permissions/groups/" ++ encodeURIComponent groupName ++ "/prompts"

def GROUP_PROMPT_PERMISSION (groupName idv : String) : String :=
  "/api/2.0/mlflow/permissions/groups/" ++ encodeURIComponent groupName ++ "/prompts/" ++ encodeURIComponent idv

def GROUP_PROMPT_PATTERN_PERMISSIONS (groupName : String) : String :=
  "/api/2.0/mlflow/permissions/groups/" ++ encodeURIComponent groupName ++ "/prompts-patterns"

def GROUP_PROMPT_PATTERN_PERMISSION (groupName idv : String) : String :=
  "/api/2.0/mlflow/permissions/groups/" ++ encodeURIComponent groupName ++ "/prompts-patterns/" ++ encodeURIComponent idv

def GROUP_GATEWAY_ENDPOINT_PERMISSIONS (groupName : String) : String :=
  "/api/2.0/mlflow/permissions/groups/" ++ encodeURIComponent groupName ++ "/gateways/endpoints"

def GROUP_GATEWAY_ENDPOINT_PERMISSION (groupName idv : String) : String :=
  "/api/2.0/mlflow/permissions/groups/" ++ encodeURIComponent groupName ++ "/gateways/endpoints/" ++ encodeURIComponent idv

def GROUP_GATEWAY_ENDPOINT_PATTERN_PERMISSIONS (groupName : String) : String :=
  "/api/2.0/mlflow/permissions/groups/" ++ encodeURIComponent groupName ++ "/gateways/endpoints-patterns"

def GROUP_GATEWAY_ENDPOINT_PATTERN_PERMISSION (groupName idv : String) : String :=
  "/api/2.0/mlflow/permissions/groups/" ++ encodeURIComponent groupName ++ "/gateways/endpoints-patterns/" ++ encodeURIComponent idv

def GROUP_GATEWAY_SECRET_PERMISSIONS (groupName : String) : String :=
  "/api/2.0/mlflow/permissions/groups/" ++ encodeURIComponent groupName ++ "/gateways/secrets"

def GROUP_GATEWAY_SECRET_PERMISSION (groupName idv : String) : String :=
  "/api/2.0/mlflow/permissions/groups/" ++ encodeURIComponent groupName ++ "/gateways/secrets/" ++ encodeURIComponent idv

def GROUP_GATEWAY_SECRET_PATTERN_PERMISSIONS (groupName : String) : String :=
  "/api/2.0/mlflow/permissions/groups/" ++ encodeURIComponent groupName ++ "/gateways/secrets-patterns"

def GROUP_GATEWAY_SECRET_PATTERN_PERMISSION (groupName idv : String) : String :=
  "/api/2.0/mlflow/permissions/groups/" ++ encodeURIComponent groupName ++ "/gateways/secrets-patterns/" ++ encodeURIComponent idv

def GROUP_GATEWAY_MODEL_PERMISSIONS (groupName : String) : String :=
  "/api/2.0/mlflow/permissions/groups/" ++ encodeURIComponent groupName ++ "/gateways/model-definitions"

def GROUP_GATEWAY_MODEL_PERMISSION (groupName idv : String) : String :=
  "/api/2.0/mlflow/permissions/groups/" ++ encodeURIComponent groupName ++ "/gateways/model-definitions/" ++ encodeURIComponent idv

def GROUP_GATEWAY_MODEL_PATTERN_PERMISSIONS (groupName : String) : String :=
  "/api/2.0/mlflow/permissions/groups/" ++ encodeURIComponent groupName ++ "/gateways/model-definitions-patterns"

def GROUP_GATEWAY_MODEL_PATTERN_PERMISSION (groupName idv : String) : String :=
  "/api/2.0/mlflow/permissions/groups/" ++ encodeURIComponent groupName ++ "/gateways/model-definitions-patterns/" ++ encodeURIComponent idv

/-- The entity kinds accepted by `getPermissionUrl`. -/
inductive EntityKind where
  | user
  | group
deriving DecidableEq, Repr

/-- JavaScript truthiness of the optional `identifier` argument: absent and
the empty string are falsy. -/
def isTruthy : Option String → Bool
  | none => false
  | some s => !s.isEmpty

/-- `getPermissionUrl` (features/permissions/utils/permission-utils.ts):
dispatches on `isPattern`, the truthiness of `identifier`, the resource
`ty` and the entity kind to one of the `DYNAMIC_API_ENDPOINTS` builders,
and throws `Unknown permission type` when `ty` is outside the closed
enumeration. -/
def getPermissionUrl (entityKind : EntityKind) (entityName : String)
    (ty : String) (isPattern : Bool) (identifier : Option String) :
    Except String String :=
  if isPattern then
    if isTruthy identifier then
      let idv := identifier.getD ""
      if ty = "experiments" then
        Except.ok (match entityKind with
          | .user => USER_EXPERIMENT_PATTERN_PERMISSION entityName idv
          | .group => GROUP_EXPERIMENT_PATTERN_PERMISSION entityName idv)
      else if ty = "models" then
        Except.ok (match entityKind with
          | .user => USER_MODEL_PATTERN_PERMISSION entityName idv
          | .group => GROUP_MODEL_PATTERN_PERMISSION entityName idv)
      else if ty = "prompts" then
        Except.ok (match entityKind with
          | .user => USER_PROMPT_PATTERN_PERMISSION entityName idv
          | .group => GROUP_PROMPT_PATTERN_PERMISSION entityName idv)
      else if ty = "ai-endpoints" then
        Except.ok (match entityKind with
          | .user => USER_GATEWAY_ENDPOINT_PATTERN_PERMISSION entityName idv
          | .group => GROUP_GATEWAY_ENDPOINT_PATTERN_PERMISSION entityName idv)
      else if ty = "ai-secrets" then
        Except.ok (match entityKind with
          | .user => USER_GATEWAY_SECRET_PATTERN_PERMISSION entityName idv
          | .group => GROUP_GATEWAY_SECRET_PATTERN_PERMISSION entityName idv)
      else if ty = "ai-models" then
        Except.ok (match entityKind with
          | .user => USER_GATEWAY_MODEL_PATTERN_PERMISSION entityName idv
          | .group => GROUP_GATEWAY_MODEL_PATTERN_PERMISSION entityName idv)
      else Except.error "Unknown permission type"
    else
      if ty = "experiments" then
        Except.ok (match entityKind with
          | .user => USER_EXPERIMENT_PATTERN_PERMISSIONS entityName
          | .group => GROUP_EXPERIMENT_PATTERN_PERMISSIONS entityName)
      else if ty = "models" then
        Except.ok (match entityKind with
          | .user => USER_MODEL_PATTERN_PERMISSIONS entityName
          | .group => GROUP_MODEL_PATTERN_PERMISSIONS entityName)
      else if ty = "prompts" then
        Except.ok (match entityKind with
          | .user => USER_PROMPT_PATTERN_PERMISSIONS entityName
          | .group => GROUP_PROMPT_PATTERN_PERMISSIONS entityName)
      else if ty = "ai-endpoints" then
        Except.ok (match entityKind with
          | .user => USER_GATEWAY_ENDPOINT_PATTERN_PERMISSIONS entityName
          | .group => GROUP_GATEWAY_ENDPOINT_PATTERN_PERMISSIONS entityName)
      else if ty = "ai-secrets" then
        Except.ok (match entityKind with
          | .user => USER_GATEWAY_SECRET_PATTERN_PERMISSIONS entityName
          | .group => GROUP_GATEWAY_SECRET_PATTERN_PERMISSIONS entityName)
      else if ty = "ai-models" then
        Except.ok (match entityKind with
          | .user => USER_GATEWAY_MODEL_PATTERN_PERMISSIONS entityName
          | .group => GROUP_GATEWAY_MODEL_PATTERN_PERMISSIONS entityName)
      else Except.error "Unknown permission type"
  else
    if isTruthy identifier then
      let idv := identifier.getD ""
      if ty = "experiments" then
        Except.ok (match entityKind with
          | .user => USER_EXPERIMENT_PERMISSION entityName idv
          | .group => GROUP_EXPERIMENT_PERMISSION entityName idv)
      else if ty = "models" then
        Except.ok (match entityKind with
          | .user => USER_MODEL_PERMISSION entityName idv
          | .group => GROUP_MODEL_PERMISSION entityName idv)
      else if ty = "prompts" then
        Except.ok (match entityKind with
          | .user => USER_PROMPT_PERMISSION entityName idv
          | .group => GROUP_PROMPT_PERMISSION entityName idv)
      else if ty = "ai-endpoints" then
        Except.ok (match entityKind with
          | .user => USER_GATEWAY_ENDPOINT_PERMISSION entityName idv
          | .group => GROUP_GATEWAY_ENDPOINT_PERMISSION entityName idv)
      else if ty = "ai-secrets" then
        Except.ok (match entityKind with
          | .user => USER_GATEWAY_SECRET_PERMISSION entityName idv
          | .group => GROUP_GATEWAY_SECRET_PERMISSION entityName idv)
      else if ty = "ai-models" then
        Except.ok (match entityKind with
          | .user => USER_GATEWAY_MODEL_PERMISSION entityName idv
          | .group => GROUP_GATEWAY_MODEL_PERMISSION entityName idv)
      else Except.error "Unknown permission type"
    else
      if ty = "experiments" then
        Except.ok (match entityKind with
          | .user => USER_EXPERIMENT_PERMISSIONS entityName
          | .group => GROUP_EXPERIMENT_PERMISSIONS entityName)
      else if ty = "models" then
        Except.ok (match entityKind with
          | .user => USER_MODEL_PERMISSIONS entityName
          | .group => GROUP_MODEL_PERMISSIONS entityName)
      else if ty = "prompts" then
        Except.ok (match entityKind with
          | .user => USER_PROMPT_PERMISSIONS entityName
          | .group => GROUP_PROMPT_PERMISSIONS entityName)
      else if ty = "ai-endpoints" then
        Except.ok (match entityKind with
          | .user => USER_GATEWAY_ENDPOINT_PERMISSIONS entityName
          | .group => GROUP_GATEWAY_ENDPOINT_PERMISSIONS entityName)
      else if ty = "ai-secrets" then
        Except.ok (match entityKind with
          | .user => USER_GATEWAY_SECRET_PERMISSIONS entityName
          | .group => GROUP_GATEWAY_SECRET_PERMISSIONS entityName)
      else if ty = "ai-models" then
        Except.ok (match entityKind with
          | .user => USER_GATEWAY_MODEL_PERMISSIONS entityName
          | .group => GROUP_GATEWAY_MODEL_PERMISSIONS entityName)
      else Except.error "Unknown permission type"

/-- The closed `PermissionType` enumeration (shared/types/entity.ts). -/
def permissionTypes : List String :=
  ["experiments", "models", "prompts", "ai-endpoints", "ai-secrets", "ai-models"]

/-- `DEFAULT_PERMISSION_LEVELS` of permission-level-select.tsx. -/
def DEFAULT_PERMISSION_LEVELS : List String :=
  ["READ", "EDIT", "MANAGE", "NO_PERMISSIONS"]

/-- `AI_GATEWAY_PERMISSION_LEVELS` of permission-level-select.tsx. -/
def AI_GATEWAY_PERMISSION_LEVELS : List String :=
  ["READ", "USE", "EDIT", "MANAGE", "NO_PERMISSIONS"]

/-- The `levels` computation of the `PermissionLevelSelect` component:
the gateway list for the three ai types, the default list otherwise. -/
def permissionSelectLevels (ty : Option String) : List String :=
  if ty = some "ai-endpoints" ∨ ty = some "ai-secrets" ∨ ty = some "ai-models" then
    AI_GATEWAY_PERMISSION_LEVELS
  else
    DEFAULT_PERMISSION_LEVELS

/-- The error state of `AddRegexRuleModal` (shared-permissions-page.tsx):
an optional message per field. -/
structure AddRuleErrors where
  regex : Option String
  priority : Option String
deriving DecidableEq, Repr

/-- Outcome of `AddRegexRuleModal.handleSave`: either the errors are set and
`onSave` is not called, or `onSave` receives the validated inputs.
A priority of `none` models the JavaScript NaN (or undefined) number. -/
inductive AddRuleOutcome where
  | rejected (errors : AddRuleErrors)
  | saved (regex : String) (permission : String) (priority : Option ℚ)
deriving DecidableEq, Repr

/-- `AddRegexRuleModal.handleSave` (shared-permissions-page.tsx): the regex
must be non-empty after trimming and must compile (`regexCompiles` models
success of the external `new RegExp` engine), and the priority must be a
present, integral and non-negative number; any failure sets the matching
error message and skips `onSave`. -/
def isJsWhitespace (c : Char) : Bool :=
  c.toNat ∈ [9, 10, 11, 12, 13, 32, 160, 8232, 8233, 65279]

/-- The JavaScript `String.prototype.trim` builtin, modelled over the
standard semantics: drop whitespace characters from both ends. -/
def jsTrim (s : String) : String :=
  ⟨((s.data.dropWhile isJsWhitespace).reverse.dropWhile isJsWhitespace).reverse⟩

def addRuleRegexError (regexCompiles : String → Bool) (regex : String) :
    Option String :=
  if jsTrim regex = "" then some "Regex is required."
  else if regexCompiles regex then none
  else some "Invalid regular expression. Please enter a valid Python regex."

/-- The priority validation of `AddRegexRuleModal.handleSave`: required
(present and not NaN), integral and non-negative. -/
def addRulePriorityError (priority : Option ℚ) : Option String :=
  match priority with
  | none => some "Priority is required."
  | some q =>
      if ¬(q.den = 1) ∨ q < 0 then some "Priority must be a non-negative integer."
      else none

/-- The save decision of `AddRegexRuleModal.handleSave`: `onSave` runs only
when neither field reported an error. -/
def addRegexRuleHandleSave (regexCompiles : String → Bool) (regex : String)
    (permission : String) (priority : Option ℚ) : AddRuleOutcome :=
  if addRuleRegexError regexCompiles regex = none
      ∧ addRulePriorityError priority = none then
    AddRuleOutcome.saved regex permission priority
  else
    AddRuleOutcome.rejected
      ⟨addRuleRegexError regexCompiles regex, addRulePriorityError priority⟩

/-- The decision whether a priority value fails the write validation:
missing or NaN, fractional, or negative. -/
def isBadPriority : Option ℚ → Bool
  | none => true
  | some q => decide (q.den ≠ 1 ∨ q < 0)

/-- The JSON body of a pattern-rule write request
(regex-permissions-view.tsx). -/
structure RuleWriteBody where
  regex : String
  priority : Option ℚ
  permission : String
deriving DecidableEq, Repr

/-- A pattern-rule write request as issued by the Regex view. -/
structure RuleWriteRequest where
  method : String
  url : String
  body : RuleWriteBody
deriving DecidableEq, Repr

/-- The creation flow for a regex rule: `AddRegexRuleModal.handleSave`
followed by `RegexPermissionsView.handleSaveRegexRule`, which POSTs
{regex, permission, priority} to the pattern collection URL.  `none` means
no request was issued. -/
def createRegexRuleFlow (regexCompiles : String → Bool) (entityKind : EntityKind)
    (entityName ty : String) (regex permission : String) (priority : Option ℚ) :
    Option RuleWriteRequest :=
  match addRegexRuleHandleSave regexCompiles regex permission priority with
  | .rejected _ => none
  | .saved r p q =>
      match getPermissionUrl entityKind entityName ty true none with
      | .error _ => none
      | .ok url => some ⟨"POST", url, ⟨r, q, p⟩⟩

/-- A pattern permission item as listed in the Regex view
(`BasePatternPermission` in shared/types/entity.ts); `priority` is a
JavaScript number, `none` modelling NaN. -/
structure PatternPermissionItem where
  id : Nat
  permission : String
  priority : Option ℚ
  regex : String
deriving DecidableEq, Repr

/-- The arguments `EditPermissionModal.handleSave` passes to `onSave`:
permission always, regex and priority only for regex rules (`none` outer
layer means the argument was omitted). -/
structure EditSaveArgs where
  newPermission : String
  regex : Option String
  priority : Option (Option ℚ)
deriving DecidableEq, Repr

/-- `EditPermissionModal.handleSave` (edit-permission-modal.tsx) applied to
a pattern item: the regex Input is rendered `readOnly`, so the regex state
keeps its initial value `item.regex` and `onSave` receives it together with
the selected permission and the edited priority; no validation is
performed. -/
def editPermissionModalSave (item : PatternPermissionItem)
    (selectedPermission : String) (priorityState : Option ℚ) : EditSaveArgs :=
  ⟨selectedPermission, some item.regex, some priorityState⟩

/-- `RegexPermissionsView.handleSavePermission`: PATCH the single-pattern
URL for the item id with body {regex ?? item.regex, priority ??
item.priority, permission}; no request when the URL builder throws. -/
def editRulePatchFlow (entityKind : EntityKind) (entityName ty : String)
    (item : PatternPermissionItem) (args : EditSaveArgs) :
    Option RuleWriteRequest :=
  match getPermissionUrl entityKind entityName ty true (some (toString item.id)) with
  | .error _ => none
  | .ok url =>
      some ⟨"PATCH", url,
        ⟨args.regex.getD item.regex, args.priority.getD item.priority,
         args.newPermission⟩⟩

/-- The complete edit flow of a regex rule: the edit modal save handler
composed with the PATCH issuing handler. -/
def editRuleFlow (entityKind : EntityKind) (entityName ty : String)
    (item : PatternPermissionItem) (selectedPermission : String)
    (priorityState : Option ℚ) : Option RuleWriteRequest :=
  editRulePatchFlow entityKind entityName ty item
    (editPermissionModalSave item selectedPermission priorityState)

lemma maxByRank_eq_or (a b : PermLevel) : maxByRank a b = a ∨ maxByRank a b = b := by
  unfold maxByRank
  split <;> simp

lemma foldl_maxByRank_mem (xs : List PermLevel) (x : PermLevel) :
    xs.foldl maxByRank x ∈ x :: xs := by
  induction xs generalizing x with
  | nil => simp [List.foldl]
  | cons y ys ih =>
    show List.foldl maxByRank (maxByRank x y) ys ∈ x :: y :: ys
    have h := ih (maxByRank x y)
    rcases List.mem_cons.mp h with h1 | h1
    · rw [h1]
      rcases maxByRank_eq_or x y with h2 | h2 <;> rw [h2] <;> simp
    · simp [h1]

lemma le_foldl_maxByRank (xs : List PermLevel) (x : PermLevel) :
    ∀ z ∈ x :: xs, hierarchyRank z ≤ hierarchyRank (xs.foldl maxByRank x) := by
  induction xs generalizing x with
  | nil => intro z hz; simp at hz; simp [hz, List.foldl]
  | cons y ys ih =>
    intro z hz
    have hbase : ∀ w, hierarchyRank w ≤ hierarchyRank (maxByRank w y) := by
      intro w; unfold maxByRank; split <;> omega
    have hbase2 : ∀ w, hierarchyRank y ≤ hierarchyRank (maxByRank w y) := by
      intro w; unfold maxByRank; split <;> omega
    rcases List.mem_cons.mp hz with h1 | h1
    · subst h1
      calc hierarchyRank z ≤ hierarchyRank (maxByRank z y) := hbase z
        _ ≤ _ := ih (maxByRank z y) _ (List.mem_cons_self _ _)
    · rcases List.mem_cons.mp h1 with h2 | h2
      · subst h2
        calc hierarchyRank z ≤ hierarchyRank (maxByRank x z) := hbase2 x
          _ ≤ _ := ih (maxByRank x z) _ (List.mem_cons_self _ _)
      · exact ih (maxByRank x y) z (List.mem_cons_of_mem _ h2)

/-- C2: for every non-empty candidate list the Hierarchy Comparator returns a
candidate that is maximal in rank among the non-NO_PERMISSIONS candidates,
returns NO_PERMISSIONS exactly when every candidate is NO_PERMISSIONS, and in
particular returns MANAGE (not READ) on the candidates READ and MANAGE. -/
theorem hierarchyComparator_spec (l : List PermLevel) (h : l ≠ []) :
    compareLevels l ∈ l
    ∧ (compareLevels l = PermLevel.NO_PERMISSIONS ↔ ∀ x ∈ l, x = PermLevel.NO_PERMISSIONS)
    ∧ (∀ x ∈ l, x ≠ PermLevel.NO_PERMISSIONS →
        hierarchyRank x ≤ hierarchyRank (compareLevels l))
    ∧ compareLevels [PermLevel.READ, PermLevel.MANAGE] = PermLevel.MANAGE := by
  refine ⟨?_, ⟨?_, ?_⟩, ?_, by decide⟩
  · unfold compareLevels
    split
    · rename_i heq
      rcases List.exists_mem_of_ne_nil l h with ⟨a, ha⟩
      have : ∀ x ∈ l, x = PermLevel.NO_PERMISSIONS := by
        intro x hx
        by_contra hne
        have : x ∈ l.filter (fun c => c != PermLevel.NO_PERMISSIONS) := by
          simp [List.mem_filter, hx, hne]
        rw [heq] at this
        simp at this
      have := this a ha
      subst this
      exact ha
    · rename_i x xs heq
      have hmem := foldl_maxByRank_mem xs x
      rw [← heq] at hmem
      exact List.mem_of_mem_filter hmem
  · intro hnp x hx
    by_contra hne
    have hfil : x ∈ l.filter (fun c => c != PermLevel.NO_PERMISSIONS) := by
      simp [List.mem_filter, hx, hne]
    unfold compareLevels at hnp
    rcases hcase : l.filter (fun c => c != PermLevel.NO_PERMISSIONS) with _ | ⟨y, ys⟩
    · rw [hcase] at hfil; simp at hfil
    · rw [hcase] at hnp
      simp only at hnp
      have hmem : ys.foldl maxByRank y ∈ List.filter (fun c => c != PermLevel.NO_PERMISSIONS) l := by
        rw [hcase]; exact foldl_maxByRank_mem ys y
      rw [hnp] at hmem
      simp [List.mem_filter] at hmem
  · intro hall
    unfold compareLevels
    have : l.filter (fun c => c != PermLevel.NO_PERMISSIONS) = [] := by
      apply List.filter_eq_nil_iff.mpr
      intro a ha
      simp [hall a ha]
    rw [this]
  · intro x hx hne
    have hfil : x ∈ l.filter (fun c => c != PermLevel.NO_PERMISSIONS) := by
      simp [List.mem_filter, hx, hne]
    unfold compareLevels
    rcases hcase : l.filter (fun c => c != PermLevel.NO_PERMISSIONS) with _ | ⟨y, ys⟩
    · rw [hcase] at hfil; simp at hfil
    · rw [hcase] at hfil
      exact le_foldl_maxByRank ys y x hfil

/-- Witness for C2: the comparator applied to the concrete candidates
READ and MANAGE returns MANAGE. -/
theorem hierarchyComparator_spec_witness :
    compareLevels [PermLevel.READ, PermLevel.MANAGE] = PermLevel.MANAGE :=
  (hierarchyComparator_spec [PermLevel.READ, PermLevel.MANAGE] (by decide)).2.2.2

lemma keyLe_refl (a : Nat × PatternRule) : keyLe a a := by
  unfold keyLe; omega

lemma keyLe_total (a b : Nat × PatternRule) : keyLe a b ∨ keyLe b a := by
  unfold keyLe; omega

lemma keyLe_trans {a b c : Nat × PatternRule} (h1 : keyLe a b) (h2 : keyLe b c) :
    keyLe a c := by
  unfold keyLe at *; omega

lemma mem_orderedInsertRule {z x : Nat × PatternRule}
    {l : List (Nat × PatternRule)} :
    z ∈ orderedInsertRule x l ↔ z = x ∨ z ∈ l := by
  induction l with
  | nil => simp [orderedInsertRule]
  | cons y ys ih =>
    unfold orderedInsertRule
    split
    · simp
    · simp only [List.mem_cons, ih]
      tauto

lemma pairwise_orderedInsertRule {x : Nat × PatternRule}
    {l : List (Nat × PatternRule)} (h : l.Pairwise keyLe) :
    (orderedInsertRule x l).Pairwise keyLe := by
  induction l with
  | nil => simp [orderedInsertRule]
  | cons y ys ih =>
    unfold orderedInsertRule
    split
    · rename_i hxy
      refine List.Pairwise.cons ?_ h
      intro z hz
      rcases List.mem_cons.mp hz with h1 | h1
      · subst h1; exact hxy
      · exact keyLe_trans hxy ((List.pairwise_cons.mp h).1 z h1)
    · rename_i hxy
      have hyx : keyLe y x := (keyLe_total x y).resolve_left hxy
      refine List.Pairwise.cons ?_ (ih (List.pairwise_cons.mp h).2)
      intro z hz
      rcases mem_orderedInsertRule.mp hz with h1 | h1
      · subst h1; exact hyx
      · exact (List.pairwise_cons.mp h).1 z h1

lemma sortRules_pairwise (l : List (Nat × PatternRule)) :
    (sortRules l).Pairwise keyLe := by
  induction l with
  | nil => simp [sortRules]
  | cons x xs ih => exact pairwise_orderedInsertRule ih

lemma mem_sortRules {z : Nat × PatternRule} {l : List (Nat × PatternRule)} :
    z ∈ sortRules l ↔ z ∈ l := by
  induction l with
  | nil => simp [sortRules]
  | cons x xs ih =>
    unfold sortRules
    rw [mem_orderedInsertRule, ih]
    simp

lemma find?_min_of_pairwise {α : Type} {p : α → Bool} {R : α → α → Prop}
    (hrefl : ∀ a, R a a) :
    ∀ l : List α, l.Pairwise R → ∀ a, l.find? p = some a →
      ∀ b ∈ l, p b = true → R a b := by
  intro l
  induction l with
  | nil => intro _ a h; simp at h
  | cons x xs ih =>
    intro hpw a hfind b hb hpb
    rcases hx : p x with _ | _
    · rw [List.find?_cons_of_neg _ (by simp [hx])] at hfind
      rcases List.mem_cons.mp hb with h1 | h1
      · subst h1; rw [hx] at hpb; simp at hpb
      · exact ih (List.pairwise_cons.mp hpw).2 a hfind b h1 hpb
    · rw [List.find?_cons_of_pos _ hx] at hfind
      have ha : a = x := (Option.some.injEq _ _ ▸ hfind).symm
      subst ha
      rcases List.mem_cons.mp hb with h1 | h1
      · subst h1; exact hrefl _
      · exact (List.pairwise_cons.mp hpw).1 b h1

lemma mem_tagIdx {r : PatternRule} {i : Nat} :
    ∀ (l : List PatternRule) (n : Nat),
      (i, r) ∈ tagIdx n l ↔ ∃ j, i = n + j ∧ l[j]? = some r := by
  intro l
  induction l with
  | nil => intro n; simp [tagIdx]
  | cons a as ih =>
    intro n
    unfold tagIdx
    simp only [List.mem_cons, Prod.mk.injEq, ih (n + 1)]
    constructor
    · rintro (⟨h1, h2⟩ | ⟨j, h1, h2⟩)
      · exact ⟨0, by omega, by simp [h2.symm]⟩
      · exact ⟨j + 1, by omega, by simpa using h2⟩
    · rintro ⟨j, h1, h2⟩
      cases j with
      | zero => left; simp at h2; exact ⟨by omega, h2.symm⟩
      | succ j' => right; exact ⟨j', by omega, by simpa using h2⟩

/-- C3: the Pattern Matcher returns `none` exactly when no rule matches the
name; when it returns a level and a rule id they belong to a matching rule
that is minimal in (priority, insertion order) among all matching rules; and
on the documented example rules the name `dev-ml-model` yields MANAGE from
the rule with id 2 (priority 2). -/
theorem patternMatcher_spec (name : String) (rules : List PatternRule) :
    (patternMatch name rules = none ↔ ∀ r ∈ rules, r.test name = false)
    ∧ (∀ (lvl : PermLevel) (rid : Nat), patternMatch name rules = some (lvl, rid) →
        ∃ (i : Nat) (r : PatternRule), rules[i]? = some r ∧ r.test name = true
          ∧ r.level = lvl ∧ r.id = rid
          ∧ ∀ (j : Nat) (r' : PatternRule), rules[j]? = some r' → r'.test name = true →
              r.priority < r'.priority ∨ (r.priority = r'.priority ∧ i ≤ j))
    ∧ patternMatch "dev-ml-model" exampleRules = some (PermLevel.MANAGE, 2) := by
  refine ⟨?_, ?_, by decide⟩
  · rcases hfind : (sortRules (tagIdx 0 rules)).find? (fun p => p.2.test name)
        with _ | ⟨q⟩
    · have hnone : patternMatch name rules = none := by
        unfold patternMatch; rw [hfind]
      rw [hnone]
      simp only [true_iff]
      intro r hr
      rw [List.find?_eq_none] at hfind
      rcases List.mem_iff_getElem?.mp hr with ⟨j, hj⟩
      have hmem : (j, r) ∈ sortRules (tagIdx 0 rules) := by
        rw [mem_sortRules]
        exact (mem_tagIdx rules 0).mpr ⟨j, by omega, hj⟩
      have := hfind _ hmem
      simpa using this
    · have hsome : patternMatch name rules = some (q.2.level, q.2.id) := by
        unfold patternMatch; rw [hfind]
      rw [hsome]
      apply iff_of_false (by simp)
      intro hall
      have hq : q.2.test name = true := by
        simpa using List.find?_some hfind
      have hqmem : q ∈ sortRules (tagIdx 0 rules) :=
        List.mem_of_find?_eq_some hfind
      have hqtag : (q.1, q.2) ∈ tagIdx 0 rules := by
        rw [← mem_sortRules]; simpa using hqmem
      rcases (mem_tagIdx rules 0).mp hqtag with ⟨j, _, hj2⟩
      have hcontra := hall q.2 (List.mem_iff_getElem?.mpr ⟨j, hj2⟩)
      rw [hq] at hcontra
      simp at hcontra
  · intro lvl rid hmatch
    rcases hfind : (sortRules (tagIdx 0 rules)).find? (fun p => p.2.test name)
        with _ | ⟨q⟩
    · have hnone : patternMatch name rules = none := by
        unfold patternMatch; rw [hfind]
      rw [hnone] at hmatch; simp at hmatch
    · have hsome : patternMatch name rules = some (q.2.level, q.2.id) := by
        unfold patternMatch; rw [hfind]
      rw [hsome] at hmatch
      simp only [Option.some.injEq, Prod.mk.injEq] at hmatch
      obtain ⟨hlvl, hrid⟩ := hmatch
      have hq : q.2.test name = true := by
        simpa using List.find?_some hfind
      have hqmem : q ∈ sortRules (tagIdx 0 rules) :=
        List.mem_of_find?_eq_some hfind
      have hqtag : (q.1, q.2) ∈ tagIdx 0 rules := by
        rw [← mem_sortRules]; simpa using hqmem
      rcases (mem_tagIdx rules 0).mp hqtag with ⟨i, hi1, hi2⟩
      refine ⟨i, q.2, hi2, hq, hlvl, hrid, ?_⟩
      intro j r' hj hr'
      have hbmem : (j, r') ∈ sortRules (tagIdx 0 rules) := by
        rw [mem_sortRules]
        exact (mem_tagIdx rules 0).mpr ⟨j, by omega, hj⟩
      have hmin := find?_min_of_pairwise keyLe_refl _ (sortRules_pairwise _)
        q hfind (j, r') hbmem (by simpa using hr')
      unfold keyLe at hmin
      simp only at hmin
      omega

/-- Witness for C3: on the documented example rules the resource name
`dev-ml-model` resolves to MANAGE from the rule with id 2. -/
theorem patternMatcher_spec_witness :
    patternMatch "dev-ml-model" exampleRules = some (PermLevel.MANAGE, 2) :=
  (patternMatcher_spec "dev-ml-model" exampleRules).2.2

/-- C1: when every source before `k` in the configured order yields no
decision and `k` yields decision `d`, the resolution is `d` with provenance
`k`; the result is unchanged under any replacement of the sources after `k`
(later sources are never consulted); and in particular, when `user` comes
first and an exact user grant exists, that grant is returned with provenance
`user` no matter what the group, regex and group-regex sources hold. -/
theorem resolver_short_circuit_spec (st : PermissionStore) (p : Principal)
    (rt : ResourceType) (name : String) (cfg : ResolutionConfig)
    (pre post : List SourceKind) (k : SourceKind) (d : PermLevel × Option Nat)
    (horder : cfg.sourceOrder = pre ++ k :: post)
    (hpre : ∀ k' ∈ pre, querySource st p rt name k' = none)
    (hk : querySource st p rt name k = some d) :
    Resolve cfg st p rt name = ⟨d.1, Provenance.fromSource k, d.2⟩
    ∧ (∀ post', resolveFrom st p rt name cfg.defaultLevel (pre ++ k :: post')
        = ⟨d.1, Provenance.fromSource k, d.2⟩)
    ∧ (∀ (lvl : PermLevel) (rest : List SourceKind),
        st.userPerm p.userId rt name = some lvl →
        resolveFrom st p rt name cfg.defaultLevel (SourceKind.user :: rest)
          = ⟨lvl, Provenance.fromSource SourceKind.user, none⟩) := by
  have main : ∀ pre' : List SourceKind,
      (∀ k' ∈ pre', querySource st p rt name k' = none) →
      ∀ post', resolveFrom st p rt name cfg.defaultLevel (pre' ++ k :: post')
        = ⟨d.1, Provenance.fromSource k, d.2⟩ := by
    intro pre'
    induction pre' with
    | nil =>
      intro _ post'
      show resolveFrom st p rt name cfg.defaultLevel (k :: post') = _
      unfold resolveFrom
      rw [hk]
    | cons a as ih =>
      intro hpre' post'
      show resolveFrom st p rt name cfg.defaultLevel (a :: (as ++ k :: post')) = _
      unfold resolveFrom
      rw [hpre' a (List.mem_cons_self _ _)]
      exact ih (fun k' hk' => hpre' k' (List.mem_cons_of_mem _ hk')) post'
  refine ⟨?_, main pre hpre, ?_⟩
  · unfold Resolve
    rw [horder]
    exact main pre hpre post
  · intro lvl rest huser
    unfold resolveFrom querySource
    rw [huser]
    rfl

/-- Witness for C1: with the default order, alice's EDIT user grant on
experiment 123 wins with provenance `user`, despite the MANAGE group grant. -/
theorem resolver_short_circuit_spec_witness :
    Resolve defaultOrderConfig aliceStore ⟨"alice", ["dev-team"]⟩
        ResourceType.experiment "123"
      = ⟨PermLevel.EDIT, Provenance.fromSource SourceKind.user, none⟩ :=
  (resolver_short_circuit_spec aliceStore ⟨"alice", ["dev-team"]⟩
    ResourceType.experiment "123" defaultOrderConfig
    [] [SourceKind.group, SourceKind.regex, SourceKind.groupRegex]
    SourceKind.user (PermLevel.EDIT, none)
    rfl (by intro k' hk'; simp at hk') (by decide)).1

/-- C6: when no configured source yields a decision for the principal and
resource, `Resolve` returns the configured default level with the default
(fallback) provenance and no matched rule id. -/
theorem resolver_default_fallback_spec (cfg : ResolutionConfig)
    (st : PermissionStore) (p : Principal) (rt : ResourceType) (name : String)
    (hall : ∀ k ∈ cfg.sourceOrder, querySource st p rt name k = none) :
    Resolve cfg st p rt name
      = ⟨cfg.defaultLevel, Provenance.fallbackDefault, none⟩ := by
  unfold Resolve
  have main : ∀ order : List SourceKind,
      (∀ k ∈ order, querySource st p rt name k = none) →
      resolveFrom st p rt name cfg.defaultLevel order
        = ⟨cfg.defaultLevel, Provenance.fallbackDefault, none⟩ := by
    intro order
    induction order with
    | nil => intro _; unfold resolveFrom; rfl
    | cons a as ih =>
      intro h
      unfold resolveFrom
      rw [h a (List.mem_cons_self _ _)]
      exact ih (fun k hk => h k (List.mem_cons_of_mem _ hk))
  exact main cfg.sourceOrder hall

/-- Witness for C6: the documented end-to-end scenario — diana has no grant
anywhere for `new-experiment` and the default is MANAGE, so resolution
returns MANAGE with the default (fallback) provenance. -/
theorem resolver_default_fallback_spec_witness :
    Resolve ⟨[SourceKind.user, SourceKind.group, SourceKind.regex,
        SourceKind.groupRegex], PermLevel.MANAGE⟩
      emptyStore ⟨"diana", []⟩ ResourceType.experiment "new-experiment"
      = ⟨PermLevel.MANAGE, Provenance.fallbackDefault, none⟩ :=
  resolver_default_fallback_spec _ emptyStore ⟨"diana", []⟩
    ResourceType.experiment "new-experiment" (by decide)

lemma getPermissionUrl_unknown (ek : EntityKind) (entityName ty : String)
    (ip : Bool) (idf : Option String) (hty : ty ∉ permissionTypes) :
    getPermissionUrl ek entityName ty ip idf
      = Except.error "Unknown permission type" := by
  simp only [permissionTypes, List.mem_cons, List.not_mem_nil, or_false,
    not_or] at hty
  obtain ⟨h1, h2, h3, h4, h5, h6⟩ := hty
  unfold getPermissionUrl
  cases ip <;> cases htr : isTruthy idf <;>
    simp [h1, h2, h3, h4, h5, h6, htr]

lemma getPermissionUrl_ok (ek : EntityKind) (entityName ty : String)
    (ip : Bool) (idf : Option String) (hty : ty ∈ permissionTypes) :
    ∃ url, getPermissionUrl ek entityName ty ip idf = Except.ok url := by
  simp only [permissionTypes, List.mem_cons, List.not_mem_nil, or_false] at hty
  unfold getPermissionUrl
  rcases hty with h | h | h | h | h | h <;> subst h <;>
    cases ip <;> cases htr : isTruthy idf <;> cases ek <;>
      (simp only [htr]; exact ⟨_, rfl⟩)

/-- C7: `getPermissionUrl` rejects every resource type outside the closed
enumeration with the `Unknown permission type` error before any request is
built, and returns a URL for every type inside the enumeration. -/
theorem getPermissionUrl_type_spec :
    (∀ (ek : EntityKind) (entityName ty : String) (ip : Bool)
        (idf : Option String), ty ∉ permissionTypes →
        getPermissionUrl ek entityName ty ip idf
          = Except.error "Unknown permission type")
    ∧ (∀ (ek : EntityKind) (entityName ty : String) (ip : Bool)
        (idf : Option String), ty ∈ permissionTypes →
        ∃ url, getPermissionUrl ek entityName ty ip idf = Except.ok url) :=
  ⟨getPermissionUrl_unknown, getPermissionUrl_ok⟩

/-- Witness for C7: the resource type `unknown` is rejected with the
`Unknown permission type` error. -/
theorem getPermissionUrl_type_spec_witness :
    getPermissionUrl EntityKind.user "alice" "unknown" false none
      = Except.error "Unknown permission type" :=
  getPermissionUrl_type_spec.1 EntityKind.user "alice" "unknown" false none
    (by decide)

/-- C8: the gateway resource types offer exactly READ, USE, EDIT, MANAGE,
NO_PERMISSIONS in that order; the non-gateway types offer exactly READ,
EDIT, MANAGE, NO_PERMISSIONS; and USE is offered precisely for the three
gateway types. -/
theorem permissionLevelSelect_spec :
    (∀ t ∈ (["ai-endpoints", "ai-secrets", "ai-models"] : List String),
        permissionSelectLevels (some t)
          = ["READ", "USE", "EDIT", "MANAGE", "NO_PERMISSIONS"])
    ∧ (∀ t ∈ (["experiments", "models", "prompts"] : List String),
        permissionSelectLevels (some t)
          = ["READ", "EDIT", "MANAGE", "NO_PERMISSIONS"])
    ∧ (∀ ty : Option String, "USE" ∈ permissionSelectLevels ty ↔
        (ty = some "ai-endpoints" ∨ ty = some "ai-secrets"
          ∨ ty = some "ai-models")) := by
  refine ⟨by decide, by decide, ?_⟩
  intro ty
  unfold permissionSelectLevels
  split
  · rename_i h
    simp only [AI_GATEWAY_PERMISSION_LEVELS]
    constructor
    · intro _; exact h
    · intro _; decide
  · rename_i h
    simp only [DEFAULT_PERMISSION_LEVELS]
    constructor
    · intro hm; exact absurd hm (by decide)
    · intro hc; exact absurd hc h

/-- Witness for C8: the ai-endpoints type offers the five-level list with
USE between READ and EDIT. -/
theorem permissionLevelSelect_spec_witness :
    permissionSelectLevels (some "ai-endpoints")
      = ["READ", "USE", "EDIT", "MANAGE", "NO_PERMISSIONS"] :=
  permissionLevelSelect_spec.1 "ai-endpoints" (by decide)

/-- C4: a regex that does not compile is rejected by the creation modal with
the invalid-regular-expression error, `onSave` never runs, and no POST
request is issued to the store. -/
theorem invalidPattern_write_rejected_spec
    (regexCompiles : String → Bool) (ek : EntityKind)
    (entityName ty perm regex : String) (prio : Option ℚ)
    (htrim : jsTrim regex ≠ "") (hc : regexCompiles regex = false) :
    (∃ e, addRegexRuleHandleSave regexCompiles regex perm prio
          = AddRuleOutcome.rejected e
        ∧ e.regex
          = some "Invalid regular expression. Please enter a valid Python regex.")
    ∧ createRegexRuleFlow regexCompiles ek entityName ty regex perm prio
        = none := by
  have herr : addRuleRegexError regexCompiles regex
      = some "Invalid regular expression. Please enter a valid Python regex." := by
    unfold addRuleRegexError
    rw [if_neg htrim, if_neg (by simp [hc])]
  have hout : addRegexRuleHandleSave regexCompiles regex perm prio
      = AddRuleOutcome.rejected
          ⟨addRuleRegexError regexCompiles regex, addRulePriorityError prio⟩ := by
    unfold addRegexRuleHandleSave
    rw [if_neg (by simp [herr])]
  constructor
  · exact ⟨_, hout, by rw [herr]⟩
  · unfold createRegexRuleFlow
    rw [hout]

/-- Witness for C4: on an engine that rejects the pattern left-bracket, the
creation flow reports the invalid-regex error and issues no request. -/
theorem invalidPattern_write_rejected_spec_witness :
    (∃ e, addRegexRuleHandleSave (fun s => decide (s ≠ "[")) "[" "READ" (some 1)
          = AddRuleOutcome.rejected e
        ∧ e.regex
          = some "Invalid regular expression. Please enter a valid Python regex.")
    ∧ createRegexRuleFlow (fun s => decide (s ≠ "[")) EntityKind.user "alice"
        "experiments" "[" "READ" (some 1) = none :=
  invalidPattern_write_rejected_spec (fun s => decide (s ≠ "[")) EntityKind.user
    "alice" "experiments" "READ" "[" (some 1) (by decide) (by decide)

lemma addRulePriorityError_of_bad (prio : Option ℚ)
    (h : isBadPriority prio = true) : addRulePriorityError prio ≠ none := by
  rcases prio with _ | q
  · simp [addRulePriorityError]
  · simp only [isBadPriority, decide_eq_true_eq] at h
    show (if ¬q.den = 1 ∨ q < 0 then
        some "Priority must be a non-negative integer."
      else (none : Option String)) ≠ none
    rw [if_pos (by tauto)]
    simp

/-- C5 counterexample: editing an existing rule with the negative priority
-1 issues the PATCH request carrying -1 instead of being rejected at the
write boundary — the edit path performs no priority validation. -/
theorem editPriorityValidation_counterexample :
    editRuleFlow EntityKind.user "alice" "experiments"
        ⟨7, "READ", some 5, ".*"⟩ "EDIT" (some (-1))
      = some ⟨"PATCH",
          "/api/2.0/mlflow/permissions/users/alice/experiment-patterns/7",
          ⟨".*", some (-1), "EDIT"⟩⟩ := by
  decide

/-- C5 as amended: on rule creation a missing, NaN, fractional or negative
priority is rejected and no request is issued; on rule update no priority
validation happens — the PATCH is issued carrying the submitted priority
verbatim whenever the resource type is valid. -/
theorem patternRulePriorityValidation_spec :
    (∀ (regexCompiles : String → Bool) (ek : EntityKind)
        (entityName ty regex perm : String) (prio : Option ℚ),
        isBadPriority prio = true →
        createRegexRuleFlow regexCompiles ek entityName ty regex perm prio
          = none
        ∧ (∃ e, addRegexRuleHandleSave regexCompiles regex perm prio
              = AddRuleOutcome.rejected e ∧ e.priority ≠ none))
    ∧ (∀ (ek : EntityKind) (entityName ty : String)
        (item : PatternPermissionItem) (perm : String) (prio : Option ℚ),
        ty ∈ permissionTypes →
        ∃ req, editRuleFlow ek entityName ty item perm prio = some req
          ∧ req.body.priority = prio ∧ req.method = "PATCH") := by
  constructor
  · intro rc ek en ty regex perm prio hbad
    have hperr := addRulePriorityError_of_bad prio hbad
    have hout : addRegexRuleHandleSave rc regex perm prio
        = AddRuleOutcome.rejected
            ⟨addRuleRegexError rc regex, addRulePriorityError prio⟩ := by
      unfold addRegexRuleHandleSave
      rw [if_neg (by simp [hperr])]
    constructor
    · unfold createRegexRuleFlow
      rw [hout]
    · exact ⟨_, hout, hperr⟩
  · intro ek en ty item perm prio hty
    obtain ⟨url, hurl⟩ := getPermissionUrl_ok ek en ty true
      (some (toString item.id)) hty
    refine ⟨⟨"PATCH", url, ⟨item.regex, prio, perm⟩⟩, ?_, rfl, rfl⟩
    unfold editRuleFlow editRulePatchFlow editPermissionModalSave
    rw [hurl]
    rfl

/-- Witness for the amended C5: a creation with priority -3 issues no
request, while an edit with priority -3 issues a PATCH carrying -3. -/
theorem patternRulePriorityValidation_spec_witness :
    (createRegexRuleFlow (fun _ => true) EntityKind.user "u" "experiments"
        ".*" "READ" (some (-3)) = none
      ∧ (∃ e, addRegexRuleHandleSave (fun _ => true) ".*" "READ" (some (-3))
            = AddRuleOutcome.rejected e ∧ e.priority ≠ none))
    ∧ (∃ req, editRuleFlow EntityKind.user "u" "experiments"
          ⟨1, "READ", some 0, ".*"⟩ "READ" (some (-3)) = some req
        ∧ req.body.priority = some (-3) ∧ req.method = "PATCH") :=
  ⟨patternRulePriorityValidation_spec.1 (fun _ => true) EntityKind.user "u"
      "experiments" ".*" "READ" (some (-3)) (by decide),
   patternRulePriorityValidation_spec.2 EntityKind.user "u" "experiments"
      ⟨1, "READ", some 0, ".*"⟩ "READ" (some (-3)) (by decide)⟩

/-- C9: whenever the edit flow issues a PATCH for a pattern rule, the body
carries the rule's stored regex unchanged — the read-only regex field means
the regex after the update equals the regex before it. -/
theorem editRegexReadOnly_spec (ek : EntityKind) (entityName ty : String)
    (item : PatternPermissionItem) (perm : String) (prio : Option ℚ)
    (req : RuleWriteRequest)
    (h : editRuleFlow ek entityName ty item perm prio = some req) :
    req.body.regex = item.regex := by
  unfold editRuleFlow editRulePatchFlow editPermissionModalSave at h
  rcases hurl : getPermissionUrl ek entityName ty true (some (toString item.id))
      with _ | url
  · rw [hurl] at h; simp at h
  · rw [hurl] at h
    have h2 : some (⟨"PATCH", url, ⟨item.regex, prio, perm⟩⟩ : RuleWriteRequest)
        = some req := h
    injection h2 with h3
    rw [← h3]

/-- Witness for C9: a concrete edit of a rule with regex caret-x-dot-star
produces a PATCH whose body regex equals the stored regex. -/
theorem editRegexReadOnly_spec_witness :
    (RuleWriteRequest.mk "PATCH"
        "/api/2.0/mlflow/permissions/users/bob/registered-models-patterns/3"
        ⟨"^x-.*", some 4, "MANAGE"⟩).body.regex = "^x-.*" :=
  editRegexReadOnly_spec EntityKind.user "bob" "models"
    ⟨3, "READ", some 2, "^x-.*"⟩ "MANAGE" (some 4) _ (by decide)

lemma char_toNat_lt (c : Char) : c.toNat < 1114112 := by
  have h := c.valid
  unfold UInt32.isValidChar Nat.isValidChar at h
  show c.val.toNat < 1114112
  omega

lemma isUnreserved_bound {c : Char} (h : isUnreservedChar c = true) :
    c.toNat < 128 ∧ c.toNat ≠ 37 ∧ c.toNat ≠ 47 := by
  simp only [isUnreservedChar, decide_eq_true_eq, List.mem_cons,
    List.not_mem_nil, or_false] at h
  omega

lemma hexVal_hexDigitChar (n : Nat) (h : n < 16) :
    hexVal (hexDigitChar n) = n := by
  interval_cases n <;> decide

lemma utf8Bytes_lt (n : Nat) (hn : n < 1114112) :
    ∀ b ∈ utf8Bytes n, b < 256 := by
  unfold utf8Bytes
  split_ifs with h1 h2 h3 <;> intro b hb <;>
    simp only [List.mem_cons, List.not_mem_nil, or_false] at hb <;> omega

lemma percentDecodeBytes_raw (c : Char) (rest : List Char) (hc : c ≠ '%') :
    percentDecodeBytes (c :: rest) = c.toNat :: percentDecodeBytes rest := by
  rcases rest with _ | ⟨a, _ | ⟨b, rest2⟩⟩
  · rw [percentDecodeBytes.eq_3 c [] (by intro h1 h2 r h; cases h), if_neg hc]
  · rw [percentDecodeBytes.eq_3 c [a] (by intro h1 h2 r h; simp at h),
      if_neg hc]
  · rw [percentDecodeBytes.eq_2, if_neg hc]

lemma percentDecode_percentByte (b : Nat) (hb : b < 256) (cs : List Char) :
    percentDecodeBytes (percentByte b ++ cs) = b :: percentDecodeBytes cs := by
  show percentDecodeBytes
      ('%' :: hexDigitChar (b / 16) :: hexDigitChar (b % 16) :: cs)
    = b :: percentDecodeBytes cs
  rw [percentDecodeBytes.eq_2, if_pos rfl]
  rw [hexVal_hexDigitChar _ (by omega), hexVal_hexDigitChar _ (by omega)]
  congr 1
  omega

lemma foldr_percentByte_append (bs : List Nat) (cs : List Char) :
    (bs.foldr (fun b acc => percentByte b ++ acc) []) ++ cs
      = bs.foldr (fun b acc => percentByte b ++ acc) cs := by
  induction bs with
  | nil => rfl
  | cons b bs ih =>
    simp only [List.foldr_cons, List.append_assoc, ih]

lemma percentDecode_foldr (bs : List Nat) (h : ∀ b ∈ bs, b < 256)
    (cs : List Char) :
    percentDecodeBytes (bs.foldr (fun b acc => percentByte b ++ acc) cs)
      = bs ++ percentDecodeBytes cs := by
  induction bs with
  | nil => rfl
  | cons b bs ih =>
    simp only [List.foldr_cons]
    rw [percentDecode_percentByte b (h b (List.mem_cons_self _ _)),
      ih (fun x hx => h x (List.mem_cons_of_mem _ hx))]
    rfl

lemma percentDecode_encodeChar (c : Char) (cs : List Char) :
    percentDecodeBytes (encodeChar c ++ cs)
      = utf8Bytes c.toNat ++ percentDecodeBytes cs := by
  unfold encodeChar
  split_ifs with h
  · obtain ⟨hlt, hne37, _⟩ := isUnreserved_bound h
    show percentDecodeBytes (c :: cs) = _
    rw [percentDecodeBytes_raw c cs (fun heq => hne37 (by rw [heq]; rfl))]
    unfold utf8Bytes
    rw [if_pos hlt]
    rfl
  · rw [foldr_percentByte_append]
    exact percentDecode_foldr _ (utf8Bytes_lt _ (char_toNat_lt c)) cs

lemma utf8DecodeAux_bytes (n : Nat) (hn : n < 1114112) (fuel : Nat)
    (bs : List Nat) :
    utf8DecodeAux (fuel + 1) (utf8Bytes n ++ bs)
      = Char.ofNat n :: utf8DecodeAux fuel bs := by
  unfold utf8Bytes
  split_ifs with h1 h2 h3
  · show utf8DecodeAux (fuel + 1) (n :: bs) = _
    rw [utf8DecodeAux]
    have hstep : utf8DecodeStep n bs = (Char.ofNat n, bs) := by
      unfold utf8DecodeStep
      rw [if_pos h1]
    rw [hstep]
  · show utf8DecodeAux (fuel + 1) ((192 + n / 64) :: (128 + n % 64) :: bs) = _
    rw [utf8DecodeAux]
    have hstep : utf8DecodeStep (192 + n / 64) ((128 + n % 64) :: bs)
        = (Char.ofNat n, bs) := by
      unfold utf8DecodeStep
      rw [if_neg (by omega), if_pos (by omega)]
      show (Char.ofNat ((192 + n / 64 - 192) * 64 + (128 + n % 64 - 128)), bs) = _
      rw [show (192 + n / 64 - 192) * 64 + (128 + n % 64 - 128) = n from by omega]
    rw [hstep]
  · show utf8DecodeAux (fuel + 1)
        ((224 + n / 4096) :: (128 + n / 64 % 64) :: (128 + n % 64) :: bs) = _
    rw [utf8DecodeAux]
    have hstep : utf8DecodeStep (224 + n / 4096)
          ((128 + n / 64 % 64) :: (128 + n % 64) :: bs)
        = (Char.ofNat n, bs) := by
      unfold utf8DecodeStep
      rw [if_neg (by omega), if_neg (by omega), if_pos (by omega)]
      show (Char.ofNat ((224 + n / 4096 - 224) * 4096
          + (128 + n / 64 % 64 - 128) * 64 + (128 + n % 64 - 128)), bs) = _
      rw [show (224 + n / 4096 - 224) * 4096 + (128 + n / 64 % 64 - 128) * 64
          + (128 + n % 64 - 128) = n from by omega]
    rw [hstep]
  · show utf8DecodeAux (fuel + 1) ((240 + n / 262144) :: (128 + n / 4096 % 64)
        :: (128 + n / 64 % 64) :: (128 + n % 64) :: bs) = _
    rw [utf8DecodeAux]
    have hstep : utf8DecodeStep (240 + n / 262144)
          ((128 + n / 4096 % 64) :: (128 + n / 64 % 64) :: (128 + n % 64) :: bs)
        = (Char.ofNat n, bs) := by
      unfold utf8DecodeStep
      rw [if_neg (by omega), if_neg (by omega), if_neg (by omega)]
      show (Char.ofNat ((240 + n / 262144 - 240) * 262144
          + (128 + n / 4096 % 64 - 128) * 4096 + (128 + n / 64 % 64 - 128) * 64
          + (128 + n % 64 - 128)), bs) = _
      rw [show (240 + n / 262144 - 240) * 262144
          + (128 + n / 4096 % 64 - 128) * 4096 + (128 + n / 64 % 64 - 128) * 64
          + (128 + n % 64 - 128) = n from by omega]
    rw [hstep]

lemma utf8Bytes_length_pos (n : Nat) : 1 ≤ (utf8Bytes n).length := by
  unfold utf8Bytes
  split_ifs <;> simp

lemma encode_length_le (l : List Char) :
    l.length ≤ (percentDecodeBytes
        (l.foldr (fun c acc => encodeChar c ++ acc) [])).length := by
  induction l with
  | nil => simp
  | cons c l ih =>
    simp only [List.foldr_cons]
    rw [percentDecode_encodeChar, List.length_append, List.length_cons]
    have := utf8Bytes_length_pos c.toNat
    omega

lemma decode_encode_list : ∀ (l : List Char) (fuel : Nat), l.length ≤ fuel →
    utf8DecodeAux fuel (percentDecodeBytes
        (l.foldr (fun c acc => encodeChar c ++ acc) [])) = l := by
  intro l
  induction l with
  | nil =>
    intro fuel _
    show utf8DecodeAux fuel [] = []
    cases fuel <;> rfl
  | cons c l ih =>
    intro fuel hlen
    rcases fuel with _ | fuel
    · simp at hlen
    · simp only [List.foldr_cons]
      rw [percentDecode_encodeChar,
        utf8DecodeAux_bytes _ (char_toNat_lt c), Char.ofNat_toNat,
        ih fuel (by simp at hlen; omega)]

lemma hexDigitChar_ne_slash (n : Nat) : hexDigitChar n ≠ '/' := by
  unfold hexDigitChar
  split <;> decide

lemma mem_foldr_percentByte {x : Char} {bs : List Nat} :
    x ∈ bs.foldr (fun b acc => percentByte b ++ acc) [] →
    ∃ b ∈ bs, x ∈ percentByte b := by
  induction bs with
  | nil => intro h; simp at h
  | cons b bs ih =>
    intro h
    simp only [List.foldr_cons, List.mem_append] at h
    rcases h with h | h
    · exact ⟨b, List.mem_cons_self _ _, h⟩
    · obtain ⟨b2, hb2, hx⟩ := ih h
      exact ⟨b2, List.mem_cons_of_mem _ hb2, hx⟩

lemma encodeChar_no_slash (c : Char) : ∀ x ∈ encodeChar c, x ≠ '/' := by
  unfold encodeChar
  split_ifs with h
  · intro x hx
    simp only [List.mem_singleton] at hx
    subst hx
    intro heq
    exact (isUnreserved_bound h).2.2 (by rw [heq]; rfl)
  · intro x hx
    obtain ⟨b, _, hxb⟩ := mem_foldr_percentByte hx
    simp only [percentByte, List.mem_cons, List.not_mem_nil, or_false] at hxb
    rcases hxb with h1 | h1 | h1 <;> subst h1
    · decide
    · exact hexDigitChar_ne_slash _
    · exact hexDigitChar_ne_slash _

lemma mem_encodeList {x : Char} {l : List Char} :
    x ∈ l.foldr (fun c acc => encodeChar c ++ acc) [] →
    ∃ c ∈ l, x ∈ encodeChar c := by
  induction l with
  | nil => intro h; simp at h
  | cons c l ih =>
    intro h
    simp only [List.foldr_cons, List.mem_append] at h
    rcases h with h | h
    · exact ⟨c, List.mem_cons_self _ _, h⟩
    · obtain ⟨c2, hc2, hx⟩ := ih h
      exact ⟨c2, List.mem_cons_of_mem _ hc2, hx⟩

/-- C10: `encodeURIComponent` is invertible — decoding the encoding returns
the original string — its output never contains a path separator, the
normal permission URLs for all six resource types have the fixed literal
segment frame around the two encoded segments, and `getPermissionUrl` is a
pure function of its arguments. -/
theorem encodeURIComponent_url_spec :
    (∀ s : String, decodeURIComponent (encodeURIComponent s) = s)
    ∧ (∀ (s : String) (c : Char), c ∈ (encodeURIComponent s).data → c ≠ '/')
    ∧ (∀ userName idv : String, idv ≠ "" →
        getPermissionUrl EntityKind.user userName "experiments" false (some idv)
          = Except.ok ("/api/2.0/mlflow/permissions/users/"
              ++ encodeURIComponent userName ++ "/experiments/"
              ++ encodeURIComponent idv)
        ∧ getPermissionUrl EntityKind.user userName "models" false (some idv)
          = Except.ok ("/api/2.0/mlflow/permissions/users/"
              ++ encodeURIComponent userName ++ "/registered-models/"
              ++ encodeURIComponent idv)
        ∧ getPermissionUrl EntityKind.user userName "prompts" false (some idv)
          = Except.ok ("/api/2.0/mlflow/permissions/users/"
              ++ encodeURIComponent userName ++ "/prompts/"
              ++ encodeURIComponent idv)
        ∧ getPermissionUrl EntityKind.user userName "ai-endpoints" false (some idv)
          = Except.ok ("/api/2.0/mlflow/permissions/users/"
              ++ encodeURIComponent userName ++ "/gateways/endpoints/"
              ++ encodeURIComponent idv)
        ∧ getPermissionUrl EntityKind.user userName "ai-secrets" false (some idv)
          = Except.ok ("/api/2.0/mlflow/permissions/users/"
              ++ encodeURIComponent userName ++ "/gateways/secrets/"
              ++ encodeURIComponent idv)
        ∧ getPermissionUrl EntityKind.user userName "ai-models" false (some idv)
          = Except.ok ("/api/2.0/mlflow/permissions/users/"
              ++ encodeURIComponent userName ++ "/gateways/model-definitions/"
              ++ encodeURIComponent idv))
    ∧ (∀ (ek1 ek2 : EntityKind) (n1 n2 t1 t2 : String) (b1 b2 : Bool)
        (i1 i2 : Option String),
        ek1 = ek2 → n1 = n2 → t1 = t2 → b1 = b2 → i1 = i2 →
        getPermissionUrl ek1 n1 t1 b1 i1 = getPermissionUrl ek2 n2 t2 b2 i2) := by
  refine ⟨?_, ?_, ?_, ?_⟩
  · intro s
    show (⟨utf8DecodeAux
        (percentDecodeBytes (s.data.foldr (fun c acc => encodeChar c ++ acc) [])).length
        (percentDecodeBytes (s.data.foldr (fun c acc => encodeChar c ++ acc) []))⟩
      : String) = s
    rw [decode_encode_list s.data _ (encode_length_le s.data)]
  · intro s c hc
    obtain ⟨c2, _, hx⟩ := mem_encodeList hc
    exact encodeChar_no_slash c2 c hx
  · intro userName idv hid
    have ht : isTruthy (some idv) = true := by
      show (!idv.isEmpty) = true
      cases hie : idv.isEmpty
      · rfl
      · exact absurd ((String.isEmpty_iff idv).mp hie) hid
    refine ⟨?_, ?_, ?_, ?_, ?_, ?_⟩ <;>
      (unfold getPermissionUrl; simp only [ht]; rfl)
  · intro ek1 ek2 n1 n2 t1 t2 b1 b2 i1 i2 h1 h2 h3 h4 h5
    subst h1; subst h2; subst h3; subst h4; subst h5
    rfl

/-- Witness for C10: the complex entity name and identifier of the test
suite produce exactly the fixed-frame URL around their encodings. -/
theorem encodeURIComponent_url_spec_witness :
    getPermissionUrl EntityKind.user "test/user@domain.com" "ai-models" false
        (some "model/with/slashes")
      = Except.ok ("/api/2.0/mlflow/permissions/users/"
          ++ encodeURIComponent "test/user@domain.com"
          ++ "/gateways/model-definitions/"
          ++ encodeURIComponent "model/with/slashes") :=
  (encodeURIComponent_url_spec.2.2.1 "test/user@domain.com"
    "model/with/slashes" (by decide)).2.2.2.2.2

end MlflowOidc
